import Mathlib

/-!
Shallow embedding of src/lightshow/parameters/xspectra.py (class
XSpectraParameters).

Modelling conventions:

* Python floats that enter arithmetic (energy cutoffs, weights) are
  embedded as rationals; the computations involved are additions,
  comparisons, maxima and a single exact division, all of which the
  source performs on small literal values.
* Card values that are only ever rendered into deck text (xniter,
  xerror, ...) are carried as their rendered string tokens, since the
  source never computes with them.
* The filesystem is explicit: the parsed cutoff-table file, the packed
  archive file and existence predicates for asset files are inputs; the
  files the call materializes are returned as data.
* Python exceptions are an explicit error type; `write` returns the
  mutated instance state together with either the error that aborted the
  call or the returned status record, mirroring that attribute mutations
  performed before an uncaught exception persist.
* The external collaborators excluded by the spec (pymatgen PWInput
  rendering, the k-point estimator, primitive-cell detection, bz2 and
  base64) appear as opaque inputs: the estimator result and primitive
  cell size are environment data, and the codec primitives are function
  parameters of the packing model.
-/

namespace XSMODEL

/-- Python exceptions that the translated code can raise. -/
inductive PyErr where
  | fileNotFound
  | attributeError
  | keyError
  | typeError
  | indexError
  | nameError
  deriving DecidableEq, Repr

/-- One entry of the SSSP-style cutoff table (catalog): filename plus the
recommended wavefunction / charge-density cutoffs, as read at lines
415-424 of the source. -/
structure TableEntry where
  filename : String
  cutoff_wfc : ℚ
  cutoff_rho : ℚ
  deriving DecidableEq, Repr

/-- The card values that `write` reads or mutates, flattened from the
nested dict of XSPECTRA_DEFAULT_CARDS.  Cutoffs and conv_thr are the
values the code computes with; the remaining fields are the str()
renderings used verbatim by _write_xspectra_in. -/
structure Cards where
  ecutwfc : ℚ
  ecutrho : ℚ
  conv_thr : ℚ
  pseudo_dir : String
  xs_element : String
  xs_edge : String
  xs_kpts : String
  xs_kpts_shift : String
  xs_xniter : String
  xs_xerror : String
  xs_xcoordcrys : String
  xs_xcheck_conv : String
  plot_xnepoint : String
  plot_xemin : String
  plot_xemax : String
  plot_terminator : String
  plot_cut_occ_states : String
  cut_desmooth : String
  deriving DecidableEq, Repr

/-- The instance attributes assigned by __init__ (lines 139-184).  Note
that the attribute _psp_directoy read at line 251 is NOT among them:
__init__ assigns only _psp_directory. -/
structure XSP where
  cards : Cards
  chpsp_directory : Option String
  psp_directory : Option String
  psp_cutoff_table : Option String
  psp_json : Option String
  defaultConvPerAtom : ℚ
  edge : String
  deriving DecidableEq, Repr

/-- The status record returned by `write` (line 533). -/
structure WriteResult where
  pass : Bool
  errors : List (String × String)
  deriving DecidableEq, Repr

/-- The keyword arguments of `write` together with the filesystem and
external-collaborator facts the call consumes.  `structure_sc` is the
ordered list of species symbols of the supercell structure;
`cutoff_table` is the parsed cutoff-table file when it exists (`none`
models FileNotFoundError on open); `pspExists` / `chpspExists` tell
whether a named asset file exists in the respective directory;
`psp_json_file` is the parsed packed archive when that file exists. -/
structure Env where
  structure_sc : List String
  sites : List Nat
  index_mapping : Nat → Nat
  primitiveLen : Nat
  kpts : Nat × Nat × Nat
  cutoff_table : Option (List (String × TableEntry))
  pspExists : String → Bool
  psp_json_file : Option (List (String × String))
  chpspExists : String → Bool

/-- Everything the call materializes or copies, as data: artifact paths
relative to the target directory, the tier-1 asset copies, the core-hole
copies as (destination name, source name) pairs, the rendered XANES
decks, the weight values written per site, the full species list after
each site is processed, the selected ground-state k-mesh, and the number
of warn() diagnostics emitted. -/
structure WriteOut where
  files : List String
  pspCopied : List String
  chpspCopies : List (String × String)
  xanesDecks : List (String × String)
  siteWeights : List (List ℚ)
  afterSiteSpecies : List (List String)
  kpoints_scf : List Nat
  warnings : Nat
  deriving DecidableEq, Repr

/-- Output of a call that aborted before materializing anything. -/
def emptyOut : WriteOut := ⟨[], [], [], [], [], [], [], 0⟩

/-- Association lookup, modelling Python dict subscripting. -/
def lookupTable : List (String × TableEntry) → String → Option TableEntry
  | [], _ => none
  | (k, v) :: rest, s => if k = s then some v else lookupTable rest s

/-- Association lookup for string-valued dicts. -/
def lookupStr : List (String × String) → String → Option String
  | [], _ => none
  | (k, v) :: rest, s => if k = s then some v else lookupStr rest s

/-- Python dict assignment d[k] = v: update in place when the key
exists (keeping its position), otherwise append. -/
def dictInsert (l : List (String × String)) (k v : String) : List (String × String) :=
  if (l.map Prod.fst).contains k then
    l.map (fun p => if p.1 = k then (k, v) else p)
  else
    l ++ [(k, v)]

/-- Lexicographic comparison of character lists by code point, the order
Python uses for string sorting. -/
def lexLe : List Char → List Char → Bool
  | [], _ => true
  | _ :: _, [] => false
  | a :: as, b :: bs => if a < b then true else if b < a then false else lexLe as bs

/-- Python string comparison s1 <= s2. -/
def pyStrLe (a b : String) : Bool := lexLe a.data b.data

/-- Insert into a list sorted by `pyStrLe`. -/
def insertSorted (x : String) : List String → List String
  | [] => [x]
  | y :: ys => if pyStrLe x y then x :: y :: ys else y :: insertSorted x ys

/-- Model of Python sorted() on a list of strings. -/
def insSortStr : List String → List String
  | [] => []
  | x :: xs => insertSorted x (insSortStr xs)

/-- Index of the first occurrence of a string in a list (0-based). -/
def idxOf : List String → String → Nat
  | [], _ => 0
  | x :: xs, t => if x = t then 0 else idxOf xs t + 1

/-- The loop at lines 477-480: enumerate the list, and every time the
entry equals the target record its 1-based position.  The accumulator is
`none` while `iabs` is still unbound; the final value is the position of
the LAST occurrence, or `none` when the target never occurs (in the
source `iabs` would then be an unbound name). -/
def iabsLoopAux (tgt : String) : List String → Nat → Option Nat → Option Nat
  | [], _, acc => acc
  | k :: ks, i, acc => iabsLoopAux tgt ks (i + 1) (if k = tgt then some (i + 1) else acc)

/-- Run the iabs loop from the start of the list with iabs unbound. -/
def iabsLoop (keys : List String) (tgt : String) : Option Nat :=
  iabsLoopAux tgt keys 0 none

/-- Lines 477-480: sorted(psp.keys()) scanned for symTarg + "+". -/
def computeIabs (psp : List (String × String)) (el : String) : Option Nat :=
  iabsLoop (insSortStr (psp.map Prod.fst)) (el ++ "+")

/-- Zero-padded site index, modelling the format f"[site:03]". -/
def pad3 (n : Nat) : String :=
  if n < 10 then "00" ++ toString n
  else if n < 100 then "0" ++ toString n
  else toString n

/-- Rendering of an integer-valued k-vector component in the %.10f
format of lines 315-317; the fan-out only ever passes the integer dipole
direction as the k-vector, so the integer case is the one exercised. -/
def fmt10 (i : Int) : String := toString i ++ ".0000000000"

/-- packPsps (lines 186-216): iterate the parsed cutoff table, read each
listed pseudopotential file as text, and build one JSON object mapping
filename to encode(compress(content)).  `readFile` returns `none` when
the file is absent (FileNotFoundError); `compress` and `encode` stand
for the external bz2.compress / base64.b64encode collaborators. -/
def packPsps (compress encode : String → String) (readFile : String → Option String) :
    List (String × TableEntry) → List (String × String) →
    Except PyErr (List (String × String))
  | [], out => .ok out
  | (_, e) :: rest, out =>
    match readFile e.filename with
    | none => .error .fileNotFound
    | some content =>
        packPsps compress encode readFile rest
          (dictInsert out e.filename (encode (compress content)))

/-- The entries materialized by a successful archive unpack. -/
structure UnpackOut where
  psp : List (String × String)
  ecutwfc : ℚ
  ecutrho : ℚ
  files : List (String × String)
  deriving DecidableEq, Repr

/-- _unpackPsps (lines 218-273).  Its first statement (line 251) reads
self._psp_directoy, a misspelled attribute that __init__ (which assigns
only _psp_directory, line 171) never binds and that no other code ever
assigns, so the attribute lookup raises AttributeError before the
cutoff table, the archive or any file is touched. -/
def unpackPsps (_self : XSP) (_env : Env) (_ecutwfc _ecutrho : ℚ)
    (_symbols : List String) : Except PyErr UnpackOut :=
  .error .attributeError

/-- The tier-1 loop of write (lines 414-424): for each symbol of the
structure, look the symbol up in the parsed cutoff table (KeyError when
absent), record its filename in the psp dict, copy the asset file into
the target directory (FileNotFoundError when absent), and raise each
cutoff to the catalog value when that is larger. -/
def tier1 (table : List (String × TableEntry)) (ex : String → Bool) :
    List String → List (String × String) → ℚ → ℚ → List String →
    Except PyErr (List (String × String) × ℚ × ℚ × List String)
  | [], psp, ew, er, copied => .ok (psp, ew, er, copied)
  | s :: ss, psp, ew, er, copied =>
    match lookupTable table s with
    | none => .error .keyError
    | some e =>
      let psp := dictInsert psp s e.filename
      if ex e.filename then
        tier1 table ex ss psp
          (if e.cutoff_wfc > ew then e.cutoff_wfc else ew)
          (if e.cutoff_rho > er then e.cutoff_rho else er)
          (copied ++ [e.filename])
      else .error .fileNotFound

/-- The placeholder mapping of line 441: each symbol mapped to
symbol + ".upf" by a dict comprehension. -/
def placeholderPsp (symbols : List String) : List (String × String) :=
  symbols.foldl (fun d s => dictInsert d s (s ++ ".upf")) []

/-- The inner try of lines 426-438: attempt the archive unpack; on
FileNotFoundError warn, permanently set self._psp_directory to None and
(through line 440-441) fall back to the placeholder mapping; any other
exception propagates and aborts the call. -/
def tier2fallback (st : XSP) (env : Env) (symbols : List String) (ew er : ℚ) :
    Except PyErr (XSP × List (String × String) × ℚ × ℚ × List String × Nat) :=
  match unpackPsps st env ew er symbols with
  | .ok u => .ok (st, u.psp, u.ecutwfc, u.ecutrho, u.files.map Prod.fst, 0)
  | .error .fileNotFound =>
      .ok ({ st with psp_directory := none }, placeholderPsp symbols, ew, er, [], 1)
  | .error e => .error e

/-- The tiered resolution of lines 406-441, producing the possibly
degraded instance, the symbol-to-filename mapping, the possibly raised
cutoffs, the asset files copied or unpacked into the target directory,
and the number of warnings emitted.  Opening the cutoff table with a
None name raises TypeError (Path(None), line 410) outside any handler;
a missing cutoff-table file or a missing asset file is the
FileNotFoundError caught at line 425, which routes to tier 2. -/
def resolve (st : XSP) (env : Env) (symbols : List String) (ew er : ℚ) :
    Except PyErr (XSP × List (String × String) × ℚ × ℚ × List String × Nat) :=
  match st.psp_directory with
  | none => .ok (st, placeholderPsp symbols, ew, er, [], 0)
  | some _ =>
    match st.psp_cutoff_table with
    | none => .error .typeError
    | some _ =>
      match env.cutoff_table with
      | none => tier2fallback st env symbols ew er
      | some table =>
        match tier1 table env.pspExists symbols [] ew er [] with
        | .ok (psp, ew, er, copied) => .ok (st, psp, ew, er, copied, 0)
        | .error .fileNotFound => tier2fallback st env symbols ew er
        | .error e => .error e

/-- _write_xspectra_in (lines 275-343) as the list of deck lines. -/
def xspectraInLines (c : Cards) (mode : String) (iabs : Nat) (dirs xkvec : List Int) :
    List String :=
  let element := c.xs_element
  let base := [
    "&input_xspectra",
    "    calculation = \x27xanes_" ++ mode ++ "\x27",
    "    edge = \x27" ++ c.xs_edge ++ "\x27",
    "    prefix = \x27pwscf\x27",
    "    outdir = \x27../\x27",
    "    xniter = " ++ c.xs_xniter,
    "    xiabs = " ++ toString iabs,
    "    xerror = " ++ c.xs_xerror,
    "    xcoordcrys = " ++ c.xs_xcoordcrys,
    "    xcheck_conv = " ++ c.xs_xcheck_conv,
    "    xepsilon(1) = " ++ toString (dirs.getD 0 0),
    "    xepsilon(2) = " ++ toString (dirs.getD 1 0),
    "    xepsilon(3) = " ++ toString (dirs.getD 2 0)]
  let quad :=
    if mode = "quadrupole" then [
      "    xkvec(1) = " ++ fmt10 (xkvec.getD 0 0),
      "    xkvec(2) = " ++ fmt10 (xkvec.getD 1 0),
      "    xkvec(3) = " ++ fmt10 (xkvec.getD 2 0)]
    else []
  base ++ quad ++ [
    "/",
    "&plot",
    "    xnepoint = " ++ c.plot_xnepoint,
    "    xemin = " ++ c.plot_xemin,
    "    xemax = " ++ c.plot_xemax,
    "    terminator = " ++ c.plot_terminator,
    "    cut_occ_states = " ++ c.plot_cut_occ_states,
    "    gamma_mode = \x27constant\x27",
    "    xgamma = 0.01 ",
    "/",
    "&pseudos",
    "    filecore = \x27../../Core_" ++ element ++ ".wfc\x27",
    "/",
    "&cut_occ",
    "    cut_desmooth = " ++ c.cut_desmooth,
    "/",
    c.xs_kpts ++ " " ++ c.xs_kpts_shift]

/-- The rendered XANES deck: the lines joined by newlines plus a
trailing newline (line 343). -/
def xspectraIn (c : Cards) (mode : String) (iabs : Nat) (dirs xkvec : List Int) : String :=
  String.intercalate "\n" (xspectraInLines c mode iabs dirs xkvec) ++ "\n"

/-- The core-hole copy block of lines 461-475.  The SOURCE paths are
f-strings with the element substituted, but the two DESTINATION paths at
lines 465 and 469 are plain strings, so the copies land under the
literal names "\x7belement\x7d.fch.upf" and "Core_\x7belement\x7d.wfc".
Returns the (destination, source) pairs copied and the number of
warnings: when either source file is missing the FileNotFoundError of
the pair of copies is caught and a single warning is emitted, keeping
any copy already made. -/
def chpspCopy (st : XSP) (env : Env) (el : String) : List (String × String) × Nat :=
  match st.chpsp_directory with
  | none => ([], 0)
  | some _ =>
    if env.chpspExists (el ++ ".fch.upf") then
      if env.chpspExists ("Core_" ++ el ++ ".wfc") then
        ([("\x7belement\x7d.fch.upf", el ++ ".fch.upf"),
          ("Core_\x7belement\x7d.wfc", "Core_" ++ el ++ ".wfc")], 0)
      else ([("\x7belement\x7d.fch.upf", el ++ ".fch.upf")], 1)
    else ([], 1)

/-- The hardcoded photon list of lines 501-504: each photon is the
"dipole" value, a direction triple followed by its declared weight. -/
def photonsList : List (List Int) := [[1, 0, 0, 1], [0, 1, 0, 1], [0, 0, 1, 1]]

/-- Lines 506-508: total declared weight of the photon set. -/
def totalweightOf (ps : List (List Int)) : ℚ :=
  ps.foldl (fun a p => a + ((p.getD 3 0 : Int) : ℚ)) 0

/-- What the photon loop of one site materializes. -/
structure PhOut where
  decks : List (String × String)
  weights : List ℚ
  files : List String
  deriving DecidableEq, Repr

/-- The photon loop of lines 510-531: for each photon, bump the counter,
take the direction triple, divide the declared weight by the total,
create dipole<n>/ under the site directory and write xanes.in (rendered
with mode "dipole", the absorber index, and the direction passed as both
dirs and xkvec, line 522-527) and weight.txt recording the weight. -/
def photonLoopAux (c : Cards) (iabs : Nat) (path : String) (tw : ℚ) :
    List (List Int) → Nat → PhOut
  | [], _ => ⟨[], [], []⟩
  | p :: ps, n =>
    let cnt := n + 1
    let dir1 := p.take 3
    let w := ((p.getD 3 0 : Int) : ℚ) / tw
    let folder := path ++ "/dipole" ++ toString cnt
    let r := photonLoopAux c iabs path tw ps cnt
    ⟨(folder ++ "/xanes.in", xspectraIn c "dipole" iabs dir1 dir1) :: r.decks,
     w :: r.weights,
     (folder ++ "/xanes.in") :: (folder ++ "/weight.txt") :: r.files⟩

/-- The photon loop run on the hardcoded photon list. -/
def photonLoop (c : Cards) (iabs : Nat) (path : String) : PhOut :=
  photonLoopAux c iabs path (totalweightOf photonsList) photonsList 0

/-- What the per-site fan-out materializes, together with the threaded
structure species. -/
structure FanoutOut where
  finalSpecies : List String
  afterSiteSpecies : List (List String)
  xanesDecks : List (String × String)
  siteWeights : List (List ℚ)
  files : List String
  deriving DecidableEq, Repr

/-- The site loop of lines 481-531: per (site, specie) pair, create the
directory pad3(site) ++ "_" ++ specie, set the structure entry at
index_mapping(site) to element ++ "+" (note: always the FIRST site's
element, line 485), render es.in from the mutated structure (PWInput,
external), set the entry back to element (line 496), then run the
photon loop.  The species list after each site is recorded. -/
def siteLoop (c : Cards) (el : String) (imap : Nat → Nat) (iabs : Nat) :
    List (Nat × String) → List String → FanoutOut
  | [], struc => ⟨struc, [], [], [], []⟩
  | (site, specie) :: rest, struc =>
    let path := pad3 site ++ "_" ++ specie
    let idx := imap site
    let struc1 := struc.set idx (el ++ "+")
    let struc2 := struc1.set idx el
    let ph := photonLoop c iabs path
    let r := siteLoop c el imap iabs rest struc2
    ⟨r.finalSpecies, struc2 :: r.afterSiteSpecies, ph.decks ++ r.xanesDecks,
     ph.weights :: r.siteWeights, ((path ++ "/es.in") :: ph.files) ++ r.files⟩

/-- The list comprehension of lines 376-378, element by element. -/
def speciesOfAux (env : Env) : List Nat → Except PyErr (List String)
  | [] => .ok []
  | s :: rest =>
    match env.structure_sc.get? (env.index_mapping s) with
    | none => .error .indexError
    | some sym =>
      match speciesOfAux env rest with
      | .ok syms => .ok (sym :: syms)
      | .error e => .error e

/-- Lines 376-378: the species symbol at the mapped index of each
requested site; an out-of-range index raises IndexError. -/
def speciesOf (env : Env) : Except PyErr (List String) :=
  speciesOfAux env env.sites

/-- The card mutations of lines 380-398: record the absorbing element
and edge, store the XANES k-mesh as a string, and set conv_thr to
defaultConvPerAtom times the structure size. -/
def stage1 (env : Env) (st : XSP) (el : String) : XSP :=
  { st with cards :=
    { st.cards with
        xs_element := el,
        xs_edge := st.edge,
        xs_kpts := toString env.kpts.1 ++ " " ++ toString env.kpts.2.1
          ++ " " ++ toString env.kpts.2.2,
        conv_thr := st.defaultConvPerAtom * (env.structure_sc.length : ℚ) } }

/-- The status record of line 533. -/
def passOk : WriteResult := ⟨true, []⟩

/-- Lines 443-533: store the resolved cutoffs back into the cards, set
pseudo_dir, render GS/gs.in (PWInput, external), register the ionized
mapping entry element+ -> element.fch.upf (line 459), copy the
core-hole assets, compute the absorber index from the sorted mapping
keys, and run the per-site fan-out.  When the ionized key were absent
the loop would leave iabs unbound and its first use (line 524) would
raise NameError; the cards mutations already performed persist. -/
def writePost (env : Env) (st : XSP) (psp0 : List (String × String)) (ew er : ℚ)
    (copied : List String) (warns : Nat) (el : String) (species : List String)
    (kscf : List Nat) : XSP × WriteOut × Except PyErr WriteResult :=
  let st := { st with cards :=
    { st.cards with ecutwfc := ew, ecutrho := er, pseudo_dir := "../" } }
  let psp := dictInsert psp0 (el ++ "+") (el ++ ".fch.upf")
  let ch := chpspCopy st env el
  match computeIabs psp el with
  | none =>
      (st, { emptyOut with
              files := copied ++ ["GS/gs.in"] ++ ch.1.map Prod.fst,
              pspCopied := copied, chpspCopies := ch.1,
              kpoints_scf := kscf, warnings := warns + ch.2 },
       .error .nameError)
  | some iabs =>
      let fan := siteLoop st.cards el env.index_mapping iabs
        (env.sites.zip species) env.structure_sc
      (st, { files := copied ++ ["GS/gs.in"] ++ ch.1.map Prod.fst ++ fan.files,
             pspCopied := copied, chpspCopies := ch.1,
             xanesDecks := fan.xanesDecks, siteWeights := fan.siteWeights,
             afterSiteSpecies := fan.afterSiteSpecies,
             kpoints_scf := kscf, warnings := warns + ch.2 },
       .ok passOk)

/-- XSpectraParameters.write (lines 345-533).  Returns the instance
state after the call (attribute mutations persist even when an uncaught
exception aborts the call), the materialized artifacts, and either the
uncaught exception or the status record. -/
def write (env : Env) (st : XSP) : XSP × WriteOut × Except PyErr WriteResult :=
  let symbols := env.structure_sc
  match speciesOf env with
  | .error e => (st, emptyOut, .error e)
  | .ok [] => (st, emptyOut, .error .indexError)
  | .ok (el :: sp) =>
    let st1 := stage1 env st el
    let kscf : List Nat :=
      if env.primitiveLen ≠ symbols.length then [1, 1, 1]
      else [env.kpts.1, env.kpts.2.1, env.kpts.2.2]
    match resolve st1 env symbols st1.cards.ecutwfc st1.cards.ecutrho with
    | .error e => (st1, emptyOut, .error e)
    | .ok (st2, psp, ew, er, copied, warns) =>
        writePost env st2 psp ew er copied warns el (el :: sp) kscf

/-- The catalog wavefunction cutoff of a symbol (0 when the symbol is
absent; only used under the hypothesis that every lookup succeeded). -/
def tblWfc (table : List (String × TableEntry)) (s : String) : ℚ :=
  match lookupTable table s with
  | some e => e.cutoff_wfc
  | none => 0

/-- The catalog charge-density cutoff of a symbol. -/
def tblRho (table : List (String × TableEntry)) (s : String) : ℚ :=
  match lookupTable table s with
  | some e => e.cutoff_rho
  | none => 0

/-- Iterated calls on the same instance, threading the mutated state. -/
def runCalls (envs : List Env) (st : XSP) : XSP :=
  envs.foldl (fun s e => (write e s).1) st

/-- The 1-based position of the ionized key el ++ "+" in the sorted key
list of a resolved mapping. -/
def sortedRankIonized (psp : List (String × String)) (el : String) : Nat :=
  idxOf (insSortStr (psp.map Prod.fst)) (el ++ "+") + 1

/-- The default cards (XSPECTRA_DEFAULT_CARDS, lines 18-50), flattened. -/
def cards0 : Cards :=
  ⟨40, 320, 1/100000000, "", "", "", "2 2 2", "0 0 0", "5000", "0.01", ".false.",
   "200", "400", "-15.0", "70", ".true.", ".true.", "0.3"⟩

/-- An instance with neither pseudopotential nor core-hole directory. -/
def st0 : XSP := ⟨cards0, none, none, none, none, 1/10000000000, "K"⟩

/-- A two-site call on a TiO structure: sites 0 and 1 with the identity
index map, so the requested sites carry species Ti and O. -/
def envTi : Env :=
  ⟨["Ti", "O"], [0, 1], id, 2, (2, 2, 2), none, fun _ => false, none, fun _ => false⟩

/-- An instance configured with a pseudopotential directory, a cutoff
table name and a packed-archive name. -/
def stPsp : XSP :=
  ⟨cards0, none, some "/psps", some "table.json", some "psps.json", 1/10000000000, "K"⟩

/-- The same TiO call but against a filesystem in which the cutoff-table
file is absent while the packed archive file exists. -/
def envTM : Env :=
  ⟨["Ti", "O"], [0, 1], id, 2, (2, 2, 2), none, fun _ => false, some [], fun _ => false⟩

/-- A concrete cutoff table covering Ti and O. -/
def table1 : List (String × TableEntry) :=
  [("Ti", ⟨"Ti.pbe.upf", 50, 400⟩), ("O", ⟨"O.pbe.upf", 60, 480⟩)]

/-- The TiO call with the cutoff table present and every asset file
present, so tier-1 resolution completes. -/
def envT1 : Env :=
  ⟨["Ti", "O"], [0, 1], id, 2, (2, 2, 2), some table1, fun _ => true, none, fun _ => false⟩

/-- An instance with only the core-hole directory configured. -/
def stCh : XSP := ⟨cards0, some "/ch", none, none, none, 1/10000000000, "K"⟩

/-- A single-site Ti call whose core-hole directory holds exactly the
two conventionally named source files. -/
def envCh : Env :=
  ⟨["Ti"], [0], id, 1, (2, 2, 2), none, fun _ => false, none,
   fun s => s = "Ti.fch.upf" || s = "Core_Ti.wfc"⟩

/-- A one-file pseudopotential directory readable for packing. -/
def readTi : String → Option String :=
  fun s => if s = "Ti.pbe.upf" then some "PSPDATA" else none

/-- A single-entry catalog for the packing example. -/
def tableTi : List (String × TableEntry) := [("Ti", ⟨"Ti.pbe.upf", 50, 400⟩)]

/-- The key set of the concrete iabs example: a resolved mapping with
keys O and Ti before the ionized insertion. -/
def pspTiO : List (String × String) := [("O", "O.upf"), ("Ti", "Ti.upf")]

/-- The mapping after line 459 inserts the ionized entry for Ti. -/
def pspTiO2 : List (String × String) :=
  dictInsert pspTiO ("Ti" ++ "+") ("Ti" ++ ".fch.upf")

/-! Helper lemmas about the embedded operations. -/

theorem cond_gt_eq_max (a b : ℚ) : (if b > a then b else a) = max a b := by
  rcases lt_or_ge a b with h | h
  · simp [if_pos h, max_eq_right h.le]
  · simp [if_neg (not_lt.2 h), max_eq_left h]

theorem le_foldl_max (l : List ℚ) : ∀ a : ℚ, a ≤ l.foldl max a := by
  induction l with
  | nil => intro a; exact le_refl a
  | cons x xs ih => intro a; exact le_trans (le_max_left a x) (ih (max a x))

theorem tier1_ok_cutoffs (table : List (String × TableEntry)) (ex : String → Bool) :
    ∀ (ss : List String) (psp : List (String × String)) (ew er : ℚ)
      (c : List String) (psp' : List (String × String)) (ew' er' : ℚ) (c' : List String),
      tier1 table ex ss psp ew er c = .ok (psp', ew', er', c') →
      ew' = (ss.map (tblWfc table)).foldl max ew ∧
      er' = (ss.map (tblRho table)).foldl max er := by
  intro ss
  induction ss with
  | nil =>
      intro psp ew er c psp' ew' er' c' h
      simp only [tier1, Except.ok.injEq, Prod.mk.injEq] at h
      obtain ⟨-, h2, h3, -⟩ := h
      simp [h2, h3]
  | cons s ss ih =>
      intro psp ew er c psp' ew' er' c' h
      simp only [tier1] at h
      split at h
      · exact absurd h (by simp)
      · rename_i e hl
        split at h
        · have := ih _ _ _ _ _ _ _ _ h
          simpa [tblWfc, tblRho, hl, cond_gt_eq_max] using this
        · exact absurd h (by simp)

theorem tier1_ok_ecut_le (table : List (String × TableEntry)) (ex : String → Bool)
    (ss : List String) (psp : List (String × String)) (ew er : ℚ)
    (c : List String) (psp' : List (String × String)) (ew' er' : ℚ) (c' : List String)
    (h : tier1 table ex ss psp ew er c = .ok (psp', ew', er', c')) :
    ew ≤ ew' ∧ er ≤ er' := by
  obtain ⟨h1, h2⟩ := tier1_ok_cutoffs table ex ss psp ew er c psp' ew' er' c' h
  exact ⟨h1 ▸ le_foldl_max _ ew, h2 ▸ le_foldl_max _ er⟩

theorem tier2fallback_eq (st : XSP) (env : Env) (symbols : List String) (ew er : ℚ) :
    tier2fallback st env symbols ew er = .error .attributeError := rfl

theorem resolve_ok_ecut_le (st : XSP) (env : Env) (symbols : List String) (ew er : ℚ)
    (st' : XSP) (psp : List (String × String)) (ew' er' : ℚ) (c : List String) (w : Nat)
    (h : resolve st env symbols ew er = .ok (st', psp, ew', er', c, w)) :
    ew ≤ ew' ∧ er ≤ er' := by
  unfold resolve at h
  split at h
  · simp only [Except.ok.injEq, Prod.mk.injEq] at h
    obtain ⟨-, -, h2, h3, -⟩ := h
    exact ⟨h2.le, h3.le⟩
  · split at h
    · exact absurd h (by simp)
    · split at h
      · rw [tier2fallback_eq] at h; exact absurd h (by simp)
      · rename_i table htable
        split at h
        · rename_i psp0 ew0 er0 c0 h1
          simp only [Except.ok.injEq, Prod.mk.injEq] at h
          obtain ⟨-, -, h2, h3, -⟩ := h
          have := tier1_ok_ecut_le table env.pspExists symbols [] ew er [] psp0 ew0 er0 c0 h1
          exact ⟨h2 ▸ this.1, h3 ▸ this.2⟩
        · rw [tier2fallback_eq] at h; exact absurd h (by simp)
        · exact absurd h (by simp)

theorem keys_map_update (l : List (String × String)) (k v : String) :
    (l.map (fun p => if p.1 = k then (k, v) else p)).map Prod.fst = l.map Prod.fst := by
  induction l with
  | nil => rfl
  | cons p ps ih =>
      by_cases h : p.1 = k
      · simp [h, ih]
      · simp [h, ih]

theorem dictInsert_keys (l : List (String × String)) (k v : String) :
    (dictInsert l k v).map Prod.fst =
      if (l.map Prod.fst).contains k then l.map Prod.fst else l.map Prod.fst ++ [k] := by
  unfold dictInsert
  split
  · exact keys_map_update l k v
  · simp

theorem mem_keys_dictInsert_self (l : List (String × String)) (k v : String) :
    k ∈ (dictInsert l k v).map Prod.fst := by
  rw [dictInsert_keys]
  split
  · rename_i h; simpa using h
  · simp

theorem nodup_keys_dictInsert (l : List (String × String)) (k v : String)
    (h : (l.map Prod.fst).Nodup) : ((dictInsert l k v).map Prod.fst).Nodup := by
  rw [dictInsert_keys]
  split
  · exact h
  · rename_i hc
    have hk : k ∉ l.map Prod.fst := by simpa using hc
    simp [List.nodup_append, h, hk]

theorem insertSorted_perm (x : String) (l : List String) :
    (insertSorted x l).Perm (x :: l) := by
  induction l with
  | nil => exact .refl _
  | cons y ys ih =>
      unfold insertSorted
      split
      · exact .refl _
      · exact (ih.cons y).trans (List.Perm.swap x y ys)

theorem insSortStr_perm (l : List String) : (insSortStr l).Perm l := by
  induction l with
  | nil => exact .refl _
  | cons x xs ih => exact (insertSorted_perm x (insSortStr xs)).trans (ih.cons x)

theorem iabsLoopAux_not_mem (tgt : String) :
    ∀ (xs : List String) (i : Nat) (acc : Option Nat),
      tgt ∉ xs → iabsLoopAux tgt xs i acc = acc := by
  intro xs
  induction xs with
  | nil => intro i acc _; rfl
  | cons x xs ih =>
      intro i acc h
      have hx : ¬x = tgt := fun e => h (e ▸ List.mem_cons_self x xs)
      have hxs : tgt ∉ xs := fun m => h (List.mem_cons_of_mem x m)
      simp only [iabsLoopAux, if_neg hx]
      exact ih (i + 1) acc hxs

theorem iabsLoopAux_found (tgt : String) :
    ∀ (xs : List String), xs.Nodup → tgt ∈ xs →
      ∀ i, iabsLoopAux tgt xs i none = some (i + idxOf xs tgt + 1) := by
  intro xs
  induction xs with
  | nil => intro _ h; exact absurd h (List.not_mem_nil tgt)
  | cons x xs ih =>
      intro hnd hmem i
      by_cases hx : x = tgt
      · subst hx
        have hnot : x ∉ xs := (List.nodup_cons.mp hnd).1
        simp only [iabsLoopAux, if_true]
        rw [iabsLoopAux_not_mem x xs (i + 1) (some (i + 1)) hnot]
        simp [idxOf]
      · have hmem' : tgt ∈ xs := by
          rcases List.mem_cons.mp hmem with h | h
          · exact absurd h.symm hx
          · exact h
        simp only [iabsLoopAux, if_neg hx]
        rw [ih (List.nodup_cons.mp hnd).2 hmem' (i + 1)]
        exact congrArg some (by simp [idxOf, hx]; omega)

theorem iabsLoop_found (xs : List String) (tgt : String) (hnd : xs.Nodup)
    (hmem : tgt ∈ xs) : iabsLoop xs tgt = some (idxOf xs tgt + 1) := by
  simpa [iabsLoop] using iabsLoopAux_found tgt xs hnd hmem 0

theorem computeIabs_found (psp : List (String × String)) (el : String)
    (hnd : (psp.map Prod.fst).Nodup) (hmem : (el ++ "+") ∈ psp.map Prod.fst) :
    computeIabs psp el =
      some (idxOf (insSortStr (psp.map Prod.fst)) (el ++ "+") + 1) := by
  have hp := insSortStr_perm (psp.map Prod.fst)
  exact iabsLoop_found _ _ (hp.nodup_iff.mpr hnd) (hp.mem_iff.mpr hmem)

theorem set_of_get_eq :
    ∀ (l : List String) (i : Nat) (b : String), l.get? i = some b → l.set i b = l := by
  intro l
  induction l with
  | nil => intro i b h; cases h
  | cons x xs ih =>
      intro i b h
      cases i with
      | zero =>
          simp only [List.get?] at h
          cases h
          rfl
      | succ n =>
          simp only [List.get?] at h
          simp [List.set, ih n b h]

theorem stage1_ecutwfc (env : Env) (st : XSP) (el : String) :
    (stage1 env st el).cards.ecutwfc = st.cards.ecutwfc := rfl

theorem stage1_ecutrho (env : Env) (st : XSP) (el : String) :
    (stage1 env st el).cards.ecutrho = st.cards.ecutrho := rfl

theorem stage1_psp_directory (env : Env) (st : XSP) (el : String) :
    (stage1 env st el).psp_directory = st.psp_directory := rfl

theorem writePost_state (env : Env) (st : XSP) (psp0 : List (String × String))
    (ew er : ℚ) (copied : List String) (warns : Nat) (el : String)
    (species : List String) (kscf : List Nat) :
    (writePost env st psp0 ew er copied warns el species kscf).1 =
    { st with cards :=
      { st.cards with ecutwfc := ew, ecutrho := er, pseudo_dir := "../" } } := by
  simp only [writePost]
  split <;> rfl

theorem photonLoop_weights (c : Cards) (iabs : Nat) (path : String) :
    (photonLoop c iabs path).weights = [1/3, 1/3, 1/3] := by
  simp only [photonLoop, photonLoopAux, photonsList, totalweightOf, List.foldl, List.getD]
  norm_num

theorem siteLoop_weights_mem (c : Cards) (el : String) (imap : Nat → Nat) (iabs : Nat) :
    ∀ (pairs : List (Nat × String)) (struc : List String) (l : List ℚ),
      l ∈ (siteLoop c el imap iabs pairs struc).siteWeights → l = [1/3, 1/3, 1/3] := by
  intro pairs
  induction pairs with
  | nil => intro struc l h; exact absurd h (List.not_mem_nil l)
  | cons q rest ih =>
      intro struc l h
      obtain ⟨site, specie⟩ := q
      simp only [siteLoop, List.mem_cons] at h
      rcases h with h | h
      · exact h.trans (photonLoop_weights c iabs (pad3 site ++ "_" ++ specie))
      · exact ih _ l h

theorem siteLoop_preserves (c : Cards) (el : String) (imap : Nat → Nat) (iabs : Nat) :
    ∀ (pairs : List (Nat × String)) (struc : List String),
      (∀ q ∈ pairs, struc.get? (imap q.1) = some el) →
      (∀ l ∈ (siteLoop c el imap iabs pairs struc).afterSiteSpecies, l = struc) ∧
      (siteLoop c el imap iabs pairs struc).finalSpecies = struc := by
  intro pairs
  induction pairs with
  | nil =>
      intro struc _
      exact ⟨fun l h => absurd h (List.not_mem_nil l), rfl⟩
  | cons q rest ih =>
      intro struc hall
      obtain ⟨site, specie⟩ := q
      have hq : struc.get? (imap site) = some el :=
        hall (site, specie) (List.mem_cons_self _ _)
      have hset : (struc.set (imap site) (el ++ "+")).set (imap site) el = struc := by
        rw [List.set_set]
        exact set_of_get_eq struc (imap site) el hq
      have hrest : ∀ q ∈ rest, struc.get? (imap q.1) = some el :=
        fun q hm => hall q (List.mem_cons_of_mem _ hm)
      have ihr := ih struc hrest
      constructor
      · intro l h
        simp only [siteLoop, hset, List.mem_cons] at h
        rcases h with h | h
        · exact h
        · exact ihr.1 l h
      · simp only [siteLoop, hset]
        exact ihr.2

theorem write_ecut_le (env : Env) (st : XSP) :
    st.cards.ecutwfc ≤ (write env st).1.cards.ecutwfc ∧
    st.cards.ecutrho ≤ (write env st).1.cards.ecutrho := by
  simp only [write]
  split
  · exact ⟨le_refl _, le_refl _⟩
  · exact ⟨le_refl _, le_refl _⟩
  · rename_i el sp hsp
    split
    · rw [stage1_ecutwfc, stage1_ecutrho]
      exact ⟨le_refl _, le_refl _⟩
    · rename_i st2 psp ew er copied warns hres
      rw [writePost_state]
      have := resolve_ok_ecut_le (stage1 env st el) env env.structure_sc
        (stage1 env st el).cards.ecutwfc (stage1 env st el).cards.ecutrho
        st2 psp ew er copied warns hres
      rw [stage1_ecutwfc, stage1_ecutrho] at this
      exact this

theorem runCalls_ecut_le (envs : List Env) :
    ∀ st : XSP, st.cards.ecutwfc ≤ (runCalls envs st).cards.ecutwfc ∧
      st.cards.ecutrho ≤ (runCalls envs st).cards.ecutrho := by
  induction envs with
  | nil => intro st; exact ⟨le_refl _, le_refl _⟩
  | cons e es ih =>
      intro st
      have h1 := write_ecut_le e st
      have h2 := ih (write e st).1
      exact ⟨le_trans h1.1 h2.1, le_trans h1.2 h2.2⟩




theorem stage1_psp_cutoff_table (env : Env) (st : XSP) (el : String) :
    (stage1 env st el).psp_cutoff_table = st.psp_cutoff_table := rfl

/-! Claim theorems. -/

/-- C1.  For every write() call in which the pseudopotential directory
and cutoff table are configured and tier-1 (direct lookup) resolution
completes for every element symbol in the structure, the resulting
ecutwfc stored in the cards equals max(caller-supplied default ecutwfc,
max over all symbols of the catalog's cutoff_wfc), and likewise ecutrho
with cutoff_rho; the cutoffs are never lowered below the
caller-supplied defaults. -/
theorem write_tier1_cutoffs_max (env : Env) (st : XSP) (el : String) (sp : List String)
    (d tname : String) (table : List (String × TableEntry))
    (psp' : List (String × String)) (ew' er' : ℚ) (c' : List String)
    (hsp : speciesOf env = .ok (el :: sp))
    (hd : st.psp_directory = some d)
    (ht : st.psp_cutoff_table = some tname)
    (he : env.cutoff_table = some table)
    (h1 : tier1 table env.pspExists env.structure_sc []
      st.cards.ecutwfc st.cards.ecutrho [] = .ok (psp', ew', er', c')) :
    (write env st).1.cards.ecutwfc =
        (env.structure_sc.map (tblWfc table)).foldl max st.cards.ecutwfc ∧
    st.cards.ecutwfc ≤ (write env st).1.cards.ecutwfc ∧
    (write env st).1.cards.ecutrho =
        (env.structure_sc.map (tblRho table)).foldl max st.cards.ecutrho ∧
    st.cards.ecutrho ≤ (write env st).1.cards.ecutrho := by
  have hres : resolve (stage1 env st el) env env.structure_sc
      (stage1 env st el).cards.ecutwfc (stage1 env st el).cards.ecutrho
      = .ok (stage1 env st el, psp', ew', er', c', 0) := by
    simp only [resolve, stage1_psp_directory, stage1_psp_cutoff_table, stage1_ecutwfc,
      stage1_ecutrho, hd, ht, he, h1]
  have hstate : (write env st).1 =
      { stage1 env st el with cards :=
        { (stage1 env st el).cards with
            ecutwfc := ew', ecutrho := er', pseudo_dir := "../" } } := by
    simp only [write, hsp, hres, writePost_state]
  obtain ⟨hW, hR⟩ := tier1_ok_cutoffs table env.pspExists env.structure_sc []
    st.cards.ecutwfc st.cards.ecutrho [] psp' ew' er' c' h1
  rw [hstate]
  exact ⟨hW, hW ▸ le_foldl_max _ _, hR, hR ▸ le_foldl_max _ _⟩

/-- C1 witness: a concrete call in which tier-1 resolution completes,
with the resulting cutoffs evaluated: max(40, 50, 60) = 60 and
max(320, 400, 480) = 480. -/
theorem write_tier1_cutoffs_max_witness :
    (tier1 table1 envT1.pspExists envT1.structure_sc []
        stPsp.cards.ecutwfc stPsp.cards.ecutrho []
      = .ok ([("Ti", "Ti.pbe.upf"), ("O", "O.pbe.upf")], 60, 480,
          ["Ti.pbe.upf", "O.pbe.upf"])) ∧
    ((write envT1 stPsp).1.cards.ecutwfc =
        (envT1.structure_sc.map (tblWfc table1)).foldl max stPsp.cards.ecutwfc ∧
      stPsp.cards.ecutwfc ≤ (write envT1 stPsp).1.cards.ecutwfc ∧
      (write envT1 stPsp).1.cards.ecutrho =
        (envT1.structure_sc.map (tblRho table1)).foldl max stPsp.cards.ecutrho ∧
      stPsp.cards.ecutrho ≤ (write envT1 stPsp).1.cards.ecutrho) ∧
    (write envT1 stPsp).1.cards.ecutwfc = 60 ∧
    (write envT1 stPsp).1.cards.ecutrho = 480 := by
  refine ⟨rfl, write_tier1_cutoffs_max envT1 stPsp "Ti" ["O"] "/psps" "table.json"
    table1 [("Ti", "Ti.pbe.upf"), ("O", "O.pbe.upf")] 60 480 ["Ti.pbe.upf", "O.pbe.upf"]
    rfl rfl rfl rfl rfl, by decide, by decide⟩

/-- C8.  Every write() call that runs to completion returns exactly the
status record with pass = true and an empty errors mapping, regardless
of any tiered-resolution fallbacks or missing-asset diagnostics emitted
during the call. -/
theorem write_status_always_pass (env : Env) (st : XSP) (r : WriteResult)
    (h : (write env st).2.2 = .ok r) : r = passOk := by
  simp only [write] at h
  split at h
  · simp at h
  · simp at h
  · split at h
    · simp at h
    · simp only [writePost] at h
      split at h
      · simp at h
      · simp only [Except.ok.injEq] at h
        exact h.symm

/-- C8 witness: a concrete completed call returning the pass record. -/
theorem write_status_always_pass_witness :
    (write envTi st0).2.2 = .ok passOk ∧ passOk = passOk :=
  ⟨rfl, write_status_always_pass envTi st0 passOk rfl⟩

/-- C9.  For the canonical three dipole directions, each carrying equal
declared weight, every weight artifact written per site records exactly
one third (the declared weight divided by the total declared weight),
and the three recorded values sum to 1. -/
theorem weight_artifacts_one_third (env : Env) (st : XSP) (l : List ℚ)
    (h : l ∈ (write env st).2.1.siteWeights) :
    l = [1/3, 1/3, 1/3] ∧ l.sum = 1 := by
  have hl : l = [1/3, 1/3, 1/3] := by
    simp only [write] at h
    split at h
    · simp [emptyOut] at h
    · simp [emptyOut] at h
    · split at h
      · simp [emptyOut] at h
      · simp only [writePost] at h
        split at h
        · simp [emptyOut] at h
        · exact siteLoop_weights_mem _ _ _ _ _ _ l h
  refine ⟨hl, ?_⟩
  rw [hl]
  norm_num

/-- C9 witness: the weight artifacts of a concrete call. -/
theorem weight_artifacts_one_third_witness :
    ([1/3, 1/3, 1/3] : List ℚ) ∈ (write envTi st0).2.1.siteWeights ∧
    (([1/3, 1/3, 1/3] : List ℚ) = [1/3, 1/3, 1/3] ∧
      ([1/3, 1/3, 1/3] : List ℚ).sum = 1) := by
  have heq : (write envTi st0).2.1.siteWeights = [[1/3, 1/3, 1/3], [1/3, 1/3, 1/3]] := by
    simp [write, writePost, siteLoop, photonLoop, photonLoopAux, photonsList,
      totalweightOf, speciesOf, speciesOfAux, stage1, resolve, placeholderPsp, dictInsert,
      computeIabs, iabsLoop, iabsLoopAux, insSortStr, insertSorted, pyStrLe, lexLe,
      st0, envTi, cards0, pad3, emptyOut, chpspCopy]
    norm_num
  have hmem : ([1/3, 1/3, 1/3] : List ℚ) ∈ (write envTi st0).2.1.siteWeights := by
    rw [heq]
    exact List.mem_cons_self _ _
  exact ⟨hmem, weight_artifacts_one_third envTi st0 _ hmem⟩

/-- C10.  Across successive write() calls on the same instance, the
stored card values ecutwfc and ecutrho are monotonically
non-decreasing: each call reads the current card values as its starting
cutoffs and writes the possibly-raised results back, both for a single
call and along any chain of calls threaded through the instance. -/
theorem cutoffs_monotone_across_calls (env : Env) (st : XSP) (envs : List Env) :
    (st.cards.ecutwfc ≤ (write env st).1.cards.ecutwfc ∧
     st.cards.ecutrho ≤ (write env st).1.cards.ecutrho) ∧
    (st.cards.ecutwfc ≤ (runCalls envs st).cards.ecutwfc ∧
     st.cards.ecutrho ≤ (runCalls envs st).cards.ecutrho) :=
  ⟨write_ecut_le env st, runCalls_ecut_le envs st⟩

/-- C3 counterexample.  The claim states that for EVERY write() call the
species list is identical before and after processing each site.  In a
call whose requested sites carry different species (structure [Ti, O],
sites 0 and 1), processing the second site overwrites the O entry with
the first site's element: the species list after processing site 1 is
[Ti, Ti], not the original [Ti, O], because lines 485 and 496 mutate and
restore with element = species[0] rather than the site's own species. -/
theorem species_not_restored_counterexample :
    (write envTi st0).2.1.afterSiteSpecies = [["Ti", "O"], ["Ti", "Ti"]] ∧
    (["Ti", "Ti"] : List String) ≠ ["Ti", "O"] := by
  exact ⟨by decide, by decide⟩

/-- C3 amended.  For every write() call in which every requested site's
mapped index carries the absorbing element's species (the species of
the first requested site), the structure's full species list is
identical before and after processing each site: every recorded
after-site species list equals the original structure species. -/
theorem species_restored_of_uniform_sites (env : Env) (st : XSP) (el : String)
    (sp : List String)
    (hsp : speciesOf env = .ok (el :: sp))
    (hall : ∀ s ∈ env.sites, env.structure_sc.get? (env.index_mapping s) = some el) :
    ∀ l ∈ (write env st).2.1.afterSiteSpecies, l = env.structure_sc := by
  intro l h
  simp only [write, hsp] at h
  split at h
  · simp [emptyOut] at h
  · simp only [writePost] at h
    split at h
    · simp [emptyOut] at h
    · have hz : ∀ q ∈ env.sites.zip (el :: sp),
          env.structure_sc.get? (env.index_mapping q.1) = some el := by
        intro q hq
        exact hall q.1 (List.of_mem_zip hq).1
      exact (siteLoop_preserves _ _ _ _ _ _ hz).1 l h

/-- C3 amended witness: a single-element-species call in which the
species list is restored after the site. -/
theorem species_restored_of_uniform_sites_witness :
    (speciesOf envCh = .ok ["Ti"]) ∧
    (∀ s ∈ envCh.sites, envCh.structure_sc.get? (envCh.index_mapping s) = some "Ti") ∧
    (∀ l ∈ (write envCh stCh).2.1.afterSiteSpecies, l = envCh.structure_sc) :=
  ⟨rfl, by decide, species_restored_of_uniform_sites envCh stCh "Ti" [] rfl (by decide)⟩

/-- C4.  After line 459 inserts the ionized entry, the absorber index
computed by the loop over sorted(psp.keys()) equals the 1-based position
of the ionized key element + "+" among the lexicographically sorted keys
of the resolved mapping, and the rendered XANES deck embeds exactly the
line "    xiabs = " followed by that index. -/
theorem absorber_index_rank (psp psp2 : List (String × String)) (el : String)
    (c : Cards) (dirs xkvec : List Int)
    (hnd : (psp.map Prod.fst).Nodup)
    (hins : psp2 = dictInsert psp (el ++ "+") (el ++ ".fch.upf")) :
    computeIabs psp2 el = some (sortedRankIonized psp2 el) ∧
    ("    xiabs = " ++ toString (sortedRankIonized psp2 el)) ∈
      xspectraInLines c "dipole" (sortedRankIonized psp2 el) dirs xkvec := by
  constructor
  · subst hins
    exact computeIabs_found _ el (nodup_keys_dictInsert _ _ _ hnd)
      (mem_keys_dictInsert_self _ _ _)
  · simp only [xspectraInLines]
    exact List.mem_append_left _ (List.mem_append_left _ (by simp))

/-- C4 witness: for resolved keys O, Ti and the ionized Ti+, sorted
lexicographically to [O, Ti, Ti+], the absorber index equals 3 and the
deck line "    xiabs = 3" is rendered. -/
theorem absorber_index_rank_witness :
    ((pspTiO.map Prod.fst).Nodup) ∧
    (computeIabs pspTiO2 "Ti" = some (sortedRankIonized pspTiO2 "Ti") ∧
      ("    xiabs = " ++ toString (sortedRankIonized pspTiO2 "Ti")) ∈
        xspectraInLines cards0 "dipole" (sortedRankIonized pspTiO2 "Ti") [1, 0, 0] [1, 0, 0]) ∧
    sortedRankIonized pspTiO2 "Ti" = 3 ∧
    insSortStr (pspTiO2.map Prod.fst) = ["O", "Ti", "Ti+"] :=
  ⟨by decide, absorber_index_rank pspTiO pspTiO2 "Ti" cards0 [1, 0, 0] [1, 0, 0]
    (by decide) rfl, by decide, by decide⟩

/-- C2 (code bug).  Packing succeeds and produces the archive keyed by
filename, but unpacking can never materialize anything: for every
instance, environment, cutoffs and symbol set, _unpackPsps aborts with
AttributeError at its first statement (line 251 reads the misspelled,
never-assigned attribute _psp_directoy), so the pack-then-unpack
round trip claimed by the spec never completes on this code. -/
theorem pack_then_unpack_aborts :
    packPsps id id readTi tableTi [] = .ok [("Ti.pbe.upf", "PSPDATA")] ∧
    (∀ (st : XSP) (env : Env) (ew er : ℚ) (symbols : List String),
      unpackPsps st env ew er symbols = .error .attributeError) :=
  ⟨rfl, fun _ _ _ _ _ => rfl⟩

/-- C5 (code bug).  With the pseudopotential directory and cutoff-table
name configured but the cutoff-table file absent, write() attempts the
archive unpack (tier 2), which immediately raises AttributeError (the
misspelled attribute at line 251); the exception is not caught by the
handler at line 433 (which catches only FileNotFoundError), so the call
aborts with no artifacts instead of falling through to the tier-3
placeholder fallback and continuing — even though the packed archive
file exists in this environment. -/
theorem tier_fallthrough_aborts :
    (write envTM stPsp).2.2 = .error .attributeError ∧
    (write envTM stPsp).2.1 = emptyOut := ⟨rfl, rfl⟩

/-- C6 (code bug).  The ionized mapping entry is registered and the two
core-hole source files (with the element substituted) are found and
copied, but the DESTINATION names are the literal strings of lines 465
and 469, whose braces are not interpolated: the files land under
"\x7belement\x7d.fch.upf" and "Core_\x7belement\x7d.wfc" instead of
"Ti.fch.upf" and "Core_Ti.wfc". -/
theorem chpsp_copy_literal_destination_names :
    (write envCh stCh).2.1.chpspCopies =
      [("\x7belement\x7d.fch.upf", "Ti.fch.upf"),
       ("Core_\x7belement\x7d.wfc", "Core_Ti.wfc")] ∧
    "Ti.fch.upf" ∉ ((write envCh stCh).2.1.chpspCopies).map Prod.fst ∧
    "Core_Ti.wfc" ∉ ((write envCh stCh).2.1.chpspCopies).map Prod.fst ∧
    (write envCh stCh).2.2 = .ok passOk := by
  refine ⟨rfl, by decide, by decide, rfl⟩

/-- C7 (code bug).  When tier 1 fails because the cutoff-table file is
absent, tier 2 aborts the whole call with AttributeError, so the
degradation of line 438 (self._psp_directory = None) is never reached:
after the aborted call the instance still has the pseudopotential
directory configured, contradicting the claimed permanent reset to
unconfigured.  (When no directory is configured at all, the placeholder
resolution does apply; see the fallback branch of `resolve`.) -/
theorem psp_directory_never_degraded :
    (write envTM stPsp).1.psp_directory = some "/psps" ∧
    (write envTM stPsp).2.2 = .error .attributeError := ⟨rfl, rfl⟩

end XSMODEL
